import Mathlib

/-!
Shallow embedding of the content-generator repository's job pipeline core:
the retry/credential-rotation policy and credential selectors (src/unnamed/part_000
and src/server.ts), the in-memory job store with its update operation, the
single-item processing pipeline, the automation dedup guard (src/server.ts),
and the concurrency-bounded batch queue runner (src/unnamed/part_000).
Machine effects (HTTP calls, the Gemini SDK, Cloudinary, the filesystem) are
abstracted as outcome parameters; timers/sleeps carry no observable state and
are omitted; Date.now is passed as an explicit clock value.
-/

/-- Outcome of one raw provider call: either a response text (possibly empty,
mirroring `result.text || ''`) or a thrown error message. -/
inductive GenOutcome where
  | success (text : String)
  | failure (err : String)
deriving DecidableEq, Repr

/-- Embeds the body of one attempt in `generateWithRetry` (part_000 lines 92-99):
a thrown provider error propagates, and an empty `result.text` raises
the error `Empty response`. -/
def attemptResult (out : GenOutcome) : Except String String :=
  match out with
  | GenOutcome.success t => if t == "" then Except.error "Empty response" else Except.ok t
  | GenOutcome.failure e => Except.error e

/-- MAX_RETRIES constant from part_000 line 16. -/
def MAX_RETRIES : Nat := 5

/-- Embeds the `while (attempt < MAX_RETRIES)` loop of `generateWithRetry`
(part_000 lines 84-114). `a` is the current `attempt` counter, `fuel` is the
remaining loop iterations (`maxRetries - a`); the returned Nat counts provider
calls actually made. On failure the code increments `attempt` and rethrows the
last error once `attempt >= MAX_RETRIES`. The fuel-0 case corresponds to the
loop exiting without a `return` (unreachable when fuel starts at
`maxRetries ≥ 1`; in JS the function would return undefined). -/
def retryLoop (maxRetries : Nat) (gen : Nat → GenOutcome) : Nat → Nat → Except String String × Nat
  | _a, 0 => (Except.error "loop exited without result", 0)
  | a, fuel+1 =>
    match attemptResult (gen a) with
    | Except.ok t => (Except.ok t, 1)
    | Except.error e =>
      if maxRetries ≤ a + 1 then (Except.error e, 1)
      else
        let r := retryLoop maxRetries gen (a+1) fuel
        (r.1, r.2 + 1)

/-- `generateWithRetry` (part_000 lines 84-114): runs the retry loop from
`attempt = 0` with the configured MAX_RETRIES bound. `gen k` is the raw outcome
of the provider call made on attempt number `k`. -/
def generateWithRetry (gen : Nat → GenOutcome) : Except String String × Nat :=
  retryLoop MAX_RETRIES gen 0 MAX_RETRIES

/-- `getNextGemini` (part_000 lines 36-41): reads the key at the current
rotation index, then advances the index modulo the pool size. -/
def getNextGemini (apiKeys : List String) (keyIndex : Nat) : String × Nat :=
  (apiKeys.getD keyIndex "", (keyIndex + 1) % apiKeys.length)

/-- Rotation index after `m` calls to `getNextGemini`, starting from the
initial `keyIndex = 0` (part_000 line 36). -/
def keyIndexAfter (apiKeys : List String) : Nat → Nat
  | 0 => 0
  | m+1 => (getNextGemini apiKeys (keyIndexAfter apiKeys m)).2

/-- Key returned by the k-th call (1-indexed) to `getNextGemini` in a fresh
process. -/
def nthKey (apiKeys : List String) (k : Nat) : String :=
  (getNextGemini apiKeys (keyIndexAfter apiKeys (k - 1))).1

/-- Whether `pat` occurs as a prefix of `s` (character lists). -/
def hasPrefixL : List Char → List Char → Bool
  | [], _ => true
  | _ :: _, [] => false
  | a :: as, b :: bs => a == b && hasPrefixL as bs

/-- Whether `pat` occurs as a contiguous substring of `s` (character lists);
embeds JavaScript `String.prototype.includes`. -/
def hasInfixL (pat : List Char) : List Char → Bool
  | [] => hasPrefixL pat []
  | c :: rest => hasPrefixL pat (c :: rest) || hasInfixL pat rest

/-- JavaScript `s.includes(pat)`. -/
def containsSub (s pat : String) : Bool :=
  hasInfixL pat.data s.data

/-- The filter at server.ts line 41: a provided key is valid when truthy
(non-empty), not containing the placeholder `YOUR_API_KEY`, and not the
sentinel `MY_GEMINI_API_KEY`. -/
def validGeminiKeys (ks : List String) : List String :=
  ks.filter (fun k => !(k == "") && !(containsSub k "YOUR_API_KEY") && !(k == "MY_GEMINI_API_KEY"))

/-- Environment-variable fallback of `getGemini` (server.ts lines 48-55);
an unset or empty `GEMINI_API_KEY` is falsy and rejected, as are the
placeholder values. -/
def getGeminiEnvFallback (envKey : Option String) : Except String String :=
  match envKey with
  | none => Except.error "GEMINI_API_KEY is not defined in environment variables and no valid keys were provided in the request."
  | some k =>
    if k == "" then
      Except.error "GEMINI_API_KEY is not defined in environment variables and no valid keys were provided in the request."
    else if k == "MY_GEMINI_API_KEY" || containsSub k "YOUR_API_KEY" then
      Except.error "Invalid GEMINI_API_KEY detected. Please configure your API key."
    else Except.ok k

/-- `getGemini` (server.ts lines 39-56). The call
`Math.floor(Math.random() * validKeys.length)` draws a random index into the
valid-key list; the draw is abstracted as the explicit parameter `pick`,
reduced modulo the list length so every admissible draw is representable.
The function is stateless: it keeps no rotation index between calls. -/
def getGemini (providedKeys : Option (List String)) (envKey : Option String) (pick : Nat) : Except String String :=
  match providedKeys with
  | some ks =>
    if 0 < ks.length then
      let vk := validGeminiKeys ks
      if 0 < vk.length then Except.ok (vk.getD (pick % vk.length) "")
      else getGeminiEnvFallback envKey
    else getGeminiEnvFallback envKey
  | none => getGeminiEnvFallback envKey

/-- Job status values from the `Job` interface (server.ts line 26). -/
inductive JStatus where
  | jsPending
  | jsProcessing
  | jsCompleted
  | jsFailed
deriving DecidableEq, Repr

/-- Job record (server.ts lines 23-33). Timestamps are Nat clock values. -/
structure Job where
  id : String
  fileId : String
  status : JStatus
  progress : Nat
  message : String
  result : Option String
  error : Option String
  startTime : Nat
  endTime : Option Nat
deriving DecidableEq, Repr

/-- A `Partial<Job>` update as passed to `updateJob`; a `none` field means the
key is absent from the update object. Only the fields the code ever updates
are represented (`id`, `fileId`, `startTime` are never part of an update). -/
structure JobUpdate where
  status : Option JStatus
  progress : Option Nat
  message : Option String
  result : Option String
  error : Option String
deriving DecidableEq, Repr

/-- Core of `updateJob` (server.ts lines 59-66) applied to one job record:
`Object.assign(job, updates)` overwrites exactly the fields present in the
update, and when the update sets status `completed` or `failed` the job's
`endTime` is stamped with the current clock. No validation of any kind is
performed. The SSE notification (lines 68-77) writes to a client stream and
touches no job state, so it is not modelled. -/
def applyUpdate (j : Job) (u : JobUpdate) (now : Nat) : Job :=
  let j' : Job :=
    { id := j.id
      fileId := j.fileId
      status := u.status.getD j.status
      progress := u.progress.getD j.progress
      message := u.message.getD j.message
      result := match u.result with | some r => some r | none => j.result
      error := match u.error with | some e => some e | none => j.error
      startTime := j.startTime
      endTime := j.endTime }
  if u.status = some JStatus.jsCompleted ∨ u.status = some JStatus.jsFailed then
    { j' with endTime := some now }
  else j'

/-- The job store is the `jobs : Map<string, Job>` (server.ts line 35),
represented as the list of its entries; `id` plays the map-key role. -/
def updateJob (store : List Job) (jobId : String) (u : JobUpdate) (now : Nat) : List Job :=
  store.map (fun j => if j.id == jobId then applyUpdate j u now else j)

/-- Job creation in `processFile` (server.ts lines 184-193): fresh id,
status `pending`, progress 0, message `Job created`. -/
def createJob (jobId fileId : String) (now : Nat) : Job :=
  { id := jobId
    fileId := fileId
    status := JStatus.jsPending
    progress := 0
    message := "Job created"
    result := none
    error := none
    startTime := now
    endTime := none }

/-- Outcomes of the external effects a single `processFile` run performs
(server.ts lines 183-289), in program order: the `axios.get(fileUrl)` fetch,
the `getGemini(config.geminiApiKeys)` construction (which can throw on bad
configuration), the provider call's `result.text || ''` (a thrown provider
error is `Except.error`; an empty text is `Except.ok ""`), the Cloudinary
upload yielding `secure_url`, and the reconciliation `axios.put` to the
external record store. -/
structure ServerOutcomes where
  fetch : Except String String
  geminiInit : Except String Unit
  genText : Except String String
  upload : Except String String
  reconcile : Except String Unit
deriving Repr

/-- Result of one embedded `processFile` run: the final job record, the list
of job-record snapshots after the creation and after each `updateJob` call
(in order), whether the reconciliation `axios.put` was attempted, and the
function's own outcome (`Except.error` for a rethrown failure, `Except.ok`
carrying `generatedUrl` for the success return value). -/
structure PFRun where
  job : Job
  trace : List Job
  reconcileAttempted : Bool
  ret : Except String String
deriving Repr

/-- Step 2's inner handling (server.ts lines 217-228): a thrown provider error
is rewrapped, and empty content raises `Gemini returned empty content`, which
the same catch rewraps. -/
def serverGenStep (genText : Except String String) : Except String String :=
  match genText with
  | Except.error m => Except.error ("Gemini generation failed: " ++ m)
  | Except.ok t =>
    if t == "" then Except.error ("Gemini generation failed: " ++ "Gemini returned empty content")
    else Except.ok t

/-- The catch block of `processFile` (server.ts lines 279-288): the job is
flipped to `failed` with progress 0, the message falls back to
`An error occurred` for an empty error message, and the error is rethrown. -/
def pfFail (j : Job) (e : String) (now : Nat) : Job :=
  applyUpdate j
    { status := some JStatus.jsFailed
      progress := some 0
      message := some (if e == "" then "An error occurred" else e)
      result := none
      error := some e } now

/-- Embeds `processFile` (server.ts lines 183-289) as a function of the
external-effect outcomes `o`. Only one job record (keyed by the fresh UUID
`jobId`) is ever touched, so `updateJob` against the store restricted to that
record is `applyUpdate` on it; the clock is fixed at `now`. Fetch failure is
rewrapped at line 209, provider failure at line 227, upload failure at
line 249; reconciliation failure is swallowed (lines 259-261). -/
def serverProcessFile (fileId jobId : String) (o : ServerOutcomes) (now : Nat) : PFRun :=
  let j0 := createJob jobId fileId now
  let j1 := applyUpdate j0
    { status := some JStatus.jsProcessing, progress := some 5
      message := some "Starting processing...", result := none, error := none } now
  let j2 := applyUpdate j1
    { status := none, progress := some 10
      message := some "Fetching prompt from source...", result := none, error := none } now
  match o.fetch with
  | Except.error m =>
    let e := "Failed to fetch prompt file: " ++ m
    let jf := pfFail j2 e now
    { job := jf, trace := [j0, j1, j2, jf], reconcileAttempted := false, ret := Except.error e }
  | Except.ok _prompt =>
    let j3 := applyUpdate j2
      { status := none, progress := some 30
        message := some "Generating content with Gemini...", result := none, error := none } now
    match o.geminiInit with
    | Except.error m =>
      let jf := pfFail j3 m now
      { job := jf, trace := [j0, j1, j2, j3, jf], reconcileAttempted := false, ret := Except.error m }
    | Except.ok _ =>
      match serverGenStep o.genText with
      | Except.error m =>
        let jf := pfFail j3 m now
        { job := jf, trace := [j0, j1, j2, j3, jf], reconcileAttempted := false, ret := Except.error m }
      | Except.ok _content =>
        let j4 := applyUpdate j3
          { status := none, progress := some 70
            message := some "Uploading to Cloudinary...", result := none, error := none } now
        match o.upload with
        | Except.error m =>
          let e := "Cloudinary upload failed: " ++ m
          let jf := pfFail j4 e now
          { job := jf, trace := [j0, j1, j2, j3, j4, jf], reconcileAttempted := false, ret := Except.error e }
        | Except.ok url =>
          let j5 := applyUpdate j4
            { status := none, progress := some 90
              message := some "Updating external API status...", result := none, error := none } now
          -- reconcile put is attempted here; its failure is only logged (lines 259-261)
          let j6 := applyUpdate j5
            { status := some JStatus.jsCompleted, progress := some 100
              message := some "Process completed successfully!", result := some url, error := none } now
          { job := j6, trace := [j0, j1, j2, j3, j4, j5, j6], reconcileAttempted := true, ret := Except.ok url }

/-- A job counts as non-terminal when its status is `processing` or `pending`. -/
def nonTerminal (j : Job) : Bool :=
  j.status == JStatus.jsProcessing || j.status == JStatus.jsPending

/-- Number of simultaneously non-terminal jobs for a given fileId in the store. -/
def countNonTerminal (store : List Job) (fileId : String) : Nat :=
  (store.filter (fun j => j.fileId == fileId && nonTerminal j)).length

/-- The automation loop's dedup guard (server.ts line 303): is some job for
this fileId currently `processing` or `pending`? -/
def isProcessing (store : List Job) (fileId : String) : Bool :=
  store.any (fun j => j.fileId == fileId && (j.status == JStatus.jsProcessing || j.status == JStatus.jsPending))

/-- Store snapshots during a `processFile` run started against `store`:
`jobs.set(jobId, job)` adds one entry keyed by the fresh UUID, and each later
`updateJob` mutates that same entry in place, so the store at each point is
`store` with the job's current record appended. -/
def storeSnapshots (store : List Job) (run : PFRun) : List (List Job) :=
  run.trace.map (fun j => store ++ [j])

/-- The manual trigger `/api/generate` (server.ts lines 336-356): it calls
`processFile` unconditionally, with no check for an existing job on the same
fileId. -/
def manualGenerate (_store : List Job) (fileId jobId : String) (o : ServerOutcomes) (now : Nat) : PFRun :=
  serverProcessFile fileId jobId o now

/-- One automation-loop iteration for one pending file (server.ts
lines 301-324): skip when `isProcessing`, otherwise run `processFile` to
termination. Returns the store snapshots over the iteration and the final
store. -/
structure AutoRun where
  snapshots : List (List Job)
  finalStore : List Job
deriving Repr

/-- Automation-scheduler step for one file (server.ts lines 301-320). -/
def automationStep (store : List Job) (fileId jobId : String) (o : ServerOutcomes) (now : Nat) : AutoRun :=
  if isProcessing store fileId then
    { snapshots := [store], finalStore := store }
  else
    let run := serverProcessFile fileId jobId o now
    { snapshots := store :: storeSnapshots store run, finalStore := store ++ [run.job] }

/-- Per-item result of the batch tool's `processFile` (part_000 lines 117-146):
`success` flag, a name, and the caught error message on failure. -/
structure BatchItemResult where
  success : Bool
  name : String
  error : Option String
deriving DecidableEq, Repr

/-- Embeds the batch tool's `processFile` (part_000 lines 117-146) as a
function of its external-effect outcomes: the `axios.get(file.secureUrl)`
fetch, the per-attempt provider outcomes consumed by `generateWithRetry`, and
the reconciliation `axios.put`. `slug` stands for `generateSafeFilename`
(whose Unicode normalization no claim concerns) and `origName` for
`file.originalFilename`. Everything runs inside one try/catch: any thrown
error, including one from the reconciliation put, yields
`{success:false, name:originalFilename, error}`; `fs.writeFileSync` throws
only on filesystem faults, which are outside the modelled effect set. -/
def batchProcessFile (origName : String) (slug : String → String)
    (fetch : Except String String) (gen : Nat → GenOutcome)
    (put : Except String Unit) : BatchItemResult :=
  match fetch with
  | Except.error e => { success := false, name := origName, error := some e }
  | Except.ok _prompt =>
    match (generateWithRetry gen).1 with
    | Except.error e => { success := false, name := origName, error := some e }
    | Except.ok _content =>
      match put with
      | Except.error e => { success := false, name := origName, error := some e }
      | Except.ok _ => { success := true, name := slug origName, error := none }

/-- Whether the reconciliation `axios.put` of the batch tool's `processFile`
is reached for an item (part_000 line 134): only after fetch and generation
succeeded. -/
def batchPutAttempted (fetch : Except String String) (gen : Nat → GenOutcome) : Bool :=
  match fetch with
  | Except.error _ => false
  | Except.ok _ =>
    match (generateWithRetry gen).1 with
    | Except.error _ => false
    | Except.ok _ => true

/-- Control point of one queue worker in `runQueue` (part_000 lines 154-162):
`atClaim` is the top of the `while (true)` loop (the bound check and
`index++` run synchronously, with no intervening await); `atItem i` is the
suspension inside `await processFile(files[i], model)`; `wDone` is a worker
whose loop has exited. -/
inductive WorkerPC where
  | atClaim
  | atItem (i : Nat)
  | wDone
deriving DecidableEq, Repr

/-- Shared state of `runQueue` (part_000 lines 149-168): the shared cursor
`index`, the `results` array (each entry records the item index it came from
and that item's success flag), and each worker's control point. -/
structure QSt where
  idx : Nat
  results : List (Nat × Bool)
  workers : List WorkerPC
deriving DecidableEq, Repr

/-- Interleaving semantics of `runQueue` with `n` items, where `out i` is the
`success` flag of `processFile` on item `i` (the batch `processFile` catches
every error and always returns a result, so a worker never throws).
JavaScript's event loop interleaves workers only at `await` points, so the
bound check plus `index++` is one atomic step, and the `results.push`
following an awaited `processFile` runs atomically with the next loop entry. -/
inductive QStep (n : Nat) (out : Nat → Bool) : QSt → QSt → Prop
  | claimExit (s : QSt) (w : Nat)
      (hw : s.workers.get? w = some WorkerPC.atClaim) (h : n ≤ s.idx) :
      QStep n out s { idx := s.idx, results := s.results, workers := s.workers.set w WorkerPC.wDone }
  | claimItem (s : QSt) (w : Nat)
      (hw : s.workers.get? w = some WorkerPC.atClaim) (h : s.idx < n) :
      QStep n out s { idx := s.idx + 1, results := s.results, workers := s.workers.set w (WorkerPC.atItem s.idx) }
  | finishItem (s : QSt) (w i : Nat)
      (hw : s.workers.get? w = some (WorkerPC.atItem i)) :
      QStep n out s { idx := s.idx, results := s.results ++ [(i, out i)], workers := s.workers.set w WorkerPC.atClaim }

/-- Initial `runQueue` state with concurrency bound `c` (part_000 line 164):
`index = 0`, empty results, `c` workers all entering their loop. -/
def initQ (c : Nat) : QSt :=
  { idx := 0, results := [], workers := List.replicate c WorkerPC.atClaim }

/-- Reachability of a `runQueue` state from the initial state under any
interleaving. -/
def QReach (c n : Nat) (out : Nat → Bool) (s : QSt) : Prop :=
  Relation.ReflTransGen (QStep n out) (initQ c) s

/-- A state from which no worker can take a step: `Promise.all(workers)` has
resolved. -/
def QStuck (n : Nat) (out : Nat → Bool) (s : QSt) : Prop :=
  ∀ s', ¬ QStep n out s s'

/-- Item index a worker currently holds, if any. -/
def heldItem : WorkerPC → Option Nat
  | WorkerPC.atItem i => some i
  | _ => none

/-- Items currently claimed but not yet pushed to `results`. -/
def inFlight (ws : List WorkerPC) : List Nat :=
  ws.filterMap heldItem

/-- Step-count bound: a measure every `QStep` strictly decreases. -/
def wWeight : WorkerPC → Nat
  | WorkerPC.atClaim => 1
  | WorkerPC.atItem _ => 2
  | WorkerPC.wDone => 0

/-- Measure of a `runQueue` state. -/
def qMeasure (n : Nat) (s : QSt) : Nat :=
  2 * (n - s.idx) + (s.workers.map wWeight).sum

/-- Status/progress pairs recorded over a job's lifetime, in update order. -/
def progressTrace (run : PFRun) : List (JStatus × Nat) :=
  run.trace.map (fun j => (j.status, j.progress))

/-- Store holding one job for fileId `f` that is currently `processing`
(mid-flight, as after server.ts line 195). -/
def c1Store : List Job :=
  [{ id := "a"
     fileId := "f"
     status := JStatus.jsProcessing
     progress := 5
     message := "Starting processing..."
     result := none
     error := none
     startTime := 0
     endTime := none }]

/-- Effect outcomes where every external call succeeds. -/
def allOkOutcomes : ServerOutcomes :=
  { fetch := Except.ok "prompt"
    geminiInit := Except.ok ()
    genText := Except.ok "text"
    upload := Except.ok "http://u"
    reconcile := Except.ok () }

/-- A job already in the terminal `completed` state. -/
def c2CompletedJob : Job :=
  { id := "a"
    fileId := "f"
    status := JStatus.jsCompleted
    progress := 100
    message := "Process completed successfully!"
    result := some "http://u"
    error := none
    startTime := 0
    endTime := some 10 }

/-- A later transition request against that job, as `updateJob` would receive
on a (hypothetical) failure report. -/
def c2LateUpdate : JobUpdate :=
  { status := some JStatus.jsFailed
    progress := some 0
    message := some "late failure"
    result := none
    error := some "late failure" }

/-! ## Retry policy lemmas -/

lemma retryLoop_all_fail (m : Nat) (gen : Nat → GenOutcome)
    (h : ∀ k, ∃ e, attemptResult (gen k) = Except.error e) :
    ∀ fuel a, 1 ≤ fuel → a + fuel = m →
      (retryLoop m gen a fuel).2 = fuel ∧ ∃ e, (retryLoop m gen a fuel).1 = Except.error e := by
  intro fuel
  induction fuel with
  | zero => intro a h1 _; omega
  | succ f ih =>
    intro a _ hsum
    obtain ⟨e, he⟩ := h a
    by_cases hf : f = 0
    · subst hf
      have hm : m ≤ a + 1 := by omega
      refine ⟨?_, e, ?_⟩ <;> simp [retryLoop, he, hm]
    · have hm : ¬ m ≤ a + 1 := by omega
      obtain ⟨hcount, e', he'⟩ := ih (a + 1) (by omega) (by omega)
      refine ⟨?_, e', ?_⟩ <;> simp [retryLoop, he, hm, hcount, he']

lemma attemptResult_ok_ne_empty (o : GenOutcome) (t : String)
    (h : attemptResult o = Except.ok t) : t ≠ "" := by
  cases o with
  | failure e => simp [attemptResult] at h
  | success s =>
    simp only [attemptResult] at h
    split at h
    · exact absurd h (by simp)
    · next hne =>
      cases h
      simpa using hne

lemma retryLoop_ok_ne_empty (m : Nat) (gen : Nat → GenOutcome) :
    ∀ fuel a t, (retryLoop m gen a fuel).1 = Except.ok t → t ≠ "" := by
  intro fuel
  induction fuel with
  | zero => intro a t ht; simp [retryLoop] at ht
  | succ f ih =>
    intro a t ht
    rcases hA : attemptResult (gen a) with e | t'
    · rw [retryLoop, hA] at ht
      by_cases hm : m ≤ a + 1
      · simp [hm] at ht
      · simp [hm] at ht
        exact ih a.succ t ht
    · rw [retryLoop, hA] at ht
      simp at ht
      subst ht
      exact attemptResult_ok_ne_empty (gen a) _ hA

lemma retryLoop_count_pos (m : Nat) (gen : Nat → GenOutcome) (a fuel : Nat) (h : 1 ≤ fuel) :
    1 ≤ (retryLoop m gen a fuel).2 := by
  cases fuel with
  | zero => omega
  | succ f =>
    rcases hA : attemptResult (gen a) with e | t
    · rw [retryLoop, hA]
      by_cases hm : m ≤ a + 1 <;> simp [hm]
    · rw [retryLoop, hA]

/-! ## Credential rotation lemmas -/

lemma keyIndexAfter_mod (keys : List String) (hk : keys ≠ []) (m : Nat) :
    keyIndexAfter keys m = m % keys.length := by
  induction m with
  | zero => simp [keyIndexAfter]
  | succ m ih =>
    simp only [keyIndexAfter, getNextGemini, ih]
    exact Nat.mod_add_mod m keys.length 1

/-! ## C3: retry exhaustion makes exactly MAX_RETRIES attempts -/

/-- C3: when the wrapped generation call fails on every attempt,
`generateWithRetry` makes exactly `MAX_RETRIES` (5) provider calls — not
fewer, not more — and then fails, rethrowing the final attempt's error. -/
theorem C3_retry_exhausts_exactly_max_attempts (gen : Nat → GenOutcome)
    (h : ∀ k, ∃ e, attemptResult (gen k) = Except.error e) :
    (generateWithRetry gen).2 = MAX_RETRIES
    ∧ ∃ e, (generateWithRetry gen).1 = Except.error e := by
  have := retryLoop_all_fail MAX_RETRIES gen h MAX_RETRIES 0 (by decide) (by decide)
  simpa [generateWithRetry] using this

/-- Witness for C3 at the concrete always-failing generator. -/
theorem C3_retry_exhausts_exactly_max_attempts_witness :
    (∀ k : Nat, ∃ e, attemptResult ((fun _ => GenOutcome.failure "boom") k) = Except.error e)
    ∧ (generateWithRetry (fun _ => GenOutcome.failure "boom")).2 = MAX_RETRIES
    ∧ ∃ e, (generateWithRetry (fun _ => GenOutcome.failure "boom")).1 = Except.error e := by
  refine ⟨fun k => ⟨"boom", rfl⟩, ?_⟩
  exact C3_retry_exhausts_exactly_max_attempts (fun _ => GenOutcome.failure "boom")
    (fun k => ⟨"boom", rfl⟩)

/-! ## C4: empty responses are failures that consume an attempt -/

/-- C4: an empty provider response at an attempt the loop reaches with retry
budget left is treated as a failure that consumes that attempt and the loop
proceeds (at least one further provider call is made), and `generateWithRetry`
never returns an empty response as a success, on any input. -/
theorem C4_empty_response_is_retried (gen : Nat → GenOutcome) (a fuel : Nat)
    (h : gen a = GenOutcome.success "") (hf : 2 ≤ fuel) (hm : a + fuel ≤ MAX_RETRIES) :
    2 ≤ (retryLoop MAX_RETRIES gen a fuel).2
    ∧ ∀ t, (generateWithRetry gen).1 = Except.ok t → t ≠ "" := by
  constructor
  · have hA : attemptResult (gen a) = Except.error "Empty response" := by
      rw [h]; simp [attemptResult]
    rcases fuel with _ | f
    · omega
    · rw [retryLoop, hA]
      have hmr : ¬ (MAX_RETRIES ≤ a + 1) := by
        simp only [MAX_RETRIES] at hm ⊢
        omega
      simp only [hmr, if_false]
      have hpos := retryLoop_count_pos MAX_RETRIES gen (a + 1) f (by omega)
      omega
  · intro t ht
    exact retryLoop_ok_ne_empty MAX_RETRIES gen MAX_RETRIES 0 t ht

/-- Witness for C4 at a generator that is empty on attempt 0 and succeeds on
attempt 1, run from the top of the loop. -/
theorem C4_empty_response_is_retried_witness :
    ((fun k => if k = 0 then GenOutcome.success "" else GenOutcome.success "text") 0
        = GenOutcome.success ""
      ∧ 2 ≤ 5 ∧ 0 + 5 ≤ MAX_RETRIES)
    ∧ (2 ≤ (generateWithRetry
          (fun k => if k = 0 then GenOutcome.success "" else GenOutcome.success "text")).2
      ∧ ∀ t, (generateWithRetry
          (fun k => if k = 0 then GenOutcome.success "" else GenOutcome.success "text")).1
            = Except.ok t → t ≠ "") :=
  ⟨⟨rfl, by decide, by decide⟩, C4_empty_response_is_retried
    (fun k => if k = 0 then GenOutcome.success "" else GenOutcome.success "text") 0 5
    rfl (by decide) (by decide)⟩

/-! ## C5: credential selection order -/

/-- C5 counterexample: the server's credential selector `getGemini`
(server.ts lines 39-56) is stateless and picks a random valid key per call;
on a pool of two keys the first call can return the second key, whereas
round-robin order requires the k-th call to return the key at index
(k-1) mod N, hence `k1` on the first call. -/
theorem C5_cex_server_selector_not_round_robin :
    getGemini (some ["k1", "k2"]) none 1 = Except.ok "k2" ∧ ("k2" : String) ≠ "k1" :=
  ⟨rfl, by decide⟩

/-- C5 amended: the batch tool's rotator `getNextGemini` (part_000
lines 36-41) is round-robin — the k-th call (k ≥ 1) on a non-empty pool
returns the key at index (k-1) mod N; the server's `getGemini` instead draws
a random valid key on each call and keeps no rotation state. -/
theorem C5_amended_batch_rotator_round_robin (keys : List String) (k : Nat)
    (hk : keys ≠ []) (h1 : 1 ≤ k) :
    nthKey keys k = keys.getD ((k - 1) % keys.length) "" := by
  simp only [nthKey, getNextGemini, keyIndexAfter_mod keys hk]

/-- Witness for C5's amended theorem: on a pool of size 2 the third call
wraps around to the first key. -/
theorem C5_amended_batch_rotator_round_robin_witness :
    (["a", "b"] : List String) ≠ [] ∧ 1 ≤ 3
    ∧ nthKey ["a", "b"] 3 = (["a", "b"] : List String).getD ((3 - 1) % (["a", "b"] : List String).length) "" :=
  ⟨by decide, by decide, C5_amended_batch_rotator_round_robin ["a", "b"] 3 (by decide) (by decide)⟩

/-! ## C2: the transition operation validates nothing -/

/-- C2 counterexample: `updateJob` accepts a transition against a job already
in the terminal state `completed` and overwrites its fields (status, progress,
message, error, endTime all change), contradicting "once a Job is in a
terminal state, no subsequent transition call changes any of its fields". -/
theorem C2_cex_terminal_job_mutable :
    c2CompletedJob.status = JStatus.jsCompleted
    ∧ updateJob [c2CompletedJob] "a" c2LateUpdate 99
        = [{ id := "a"
             fileId := "f"
             status := JStatus.jsFailed
             progress := 0
             message := "late failure"
             result := some "http://u"
             error := some "late failure"
             startTime := 0
             endTime := some 99 }] :=
  ⟨rfl, rfl⟩

/-- C2 amended: `updateJob` performs no state-graph validation — it applies
any requested update unconditionally, regardless of the job's current state
(so terminal jobs remain mutable, and the legal order pending → processing →
terminal holds only because the pipeline happens to issue updates in that
order). The stamping half of the claim does hold: every update that sets
status `completed` or `failed` stamps the end timestamp. -/
theorem C2_amended_update_unconditional (j : Job) (u : JobUpdate) (now : Nat) :
    ((u.status = some JStatus.jsCompleted ∨ u.status = some JStatus.jsFailed) →
      (applyUpdate j u now).endTime = some now)
    ∧ (applyUpdate j u now).status = u.status.getD j.status
    ∧ (applyUpdate j u now).progress = u.progress.getD j.progress := by
  refine ⟨?_, ?_, ?_⟩
  · intro h
    rw [applyUpdate, if_pos h]
  · by_cases h : u.status = some JStatus.jsCompleted ∨ u.status = some JStatus.jsFailed
    · rw [applyUpdate, if_pos h]
    · rw [applyUpdate, if_neg h]
  · by_cases h : u.status = some JStatus.jsCompleted ∨ u.status = some JStatus.jsFailed
    · rw [applyUpdate, if_pos h]
    · rw [applyUpdate, if_neg h]

/-- Witness for C2's amended theorem at the concrete late update. -/
theorem C2_amended_update_unconditional_witness :
    (applyUpdate c2CompletedJob c2LateUpdate 99).endTime = some 99
    ∧ (applyUpdate c2CompletedJob c2LateUpdate 99).status = c2LateUpdate.status.getD c2CompletedJob.status
    ∧ (applyUpdate c2CompletedJob c2LateUpdate 99).progress = c2LateUpdate.progress.getD c2CompletedJob.progress :=
  ⟨(C2_amended_update_unconditional c2CompletedJob c2LateUpdate 99).1 (Or.inr rfl),
   (C2_amended_update_unconditional c2CompletedJob c2LateUpdate 99).2.1,
   (C2_amended_update_unconditional c2CompletedJob c2LateUpdate 99).2.2⟩

/-! ## Server pipeline lemmas -/

lemma serverProcessFile_terminal (fileId jobId : String) (o : ServerOutcomes) (now : Nat) :
    (serverProcessFile fileId jobId o now).job.status = JStatus.jsCompleted
    ∨ (serverProcessFile fileId jobId o now).job.status = JStatus.jsFailed := by
  rcases o with ⟨fetch, gi, gt, up, rec⟩
  rcases fetch with m | p
  · simp [serverProcessFile, pfFail, applyUpdate]
  · rcases gi with m | u
    · simp [serverProcessFile, pfFail, applyUpdate]
    · rcases gt with m | t
      · simp [serverProcessFile, serverGenStep, pfFail, applyUpdate]
      · by_cases ht : t == ""
        · simp [serverProcessFile, serverGenStep, ht, pfFail, applyUpdate]
        · rcases up with m | url
          · simp [serverProcessFile, serverGenStep, ht, pfFail, applyUpdate]
          · simp [serverProcessFile, serverGenStep, ht, applyUpdate]

lemma nonTerminal_false_of_terminal (j : Job)
    (h : j.status = JStatus.jsCompleted ∨ j.status = JStatus.jsFailed) :
    nonTerminal j = false := by
  rcases h with h | h <;> simp [nonTerminal, h]

lemma countNonTerminal_append_singleton (store : List Job) (j : Job) (f : String) :
    countNonTerminal (store ++ [j]) f
      = countNonTerminal store f + (if j.fileId == f && nonTerminal j then 1 else 0) := by
  simp only [countNonTerminal, List.filter_append, List.length_append]
  congr 1
  by_cases hj : j.fileId == f && nonTerminal j
  · simp [List.filter, hj]
  · simp [List.filter, hj]

lemma isProcessing_eq_false_iff (store : List Job) (f : String) :
    isProcessing store f = false ↔ countNonTerminal store f = 0 := by
  rw [isProcessing, countNonTerminal, List.length_eq_zero, List.filter_eq_nil_iff,
    List.any_eq_false]
  simp only [nonTerminal]

/-! ## C1: the dedup invariant -/

/-- C1 counterexample: with one Job for fileId `f` still `processing` in the
store, the manual trigger `/api/generate` runs `processFile` with no dedup
check, and the store state right after job creation holds two simultaneously
non-terminal Jobs for `f`. -/
theorem C1_cex_manual_trigger_creates_duplicate :
    countNonTerminal c1Store "f" = 1
    ∧ (storeSnapshots c1Store (manualGenerate c1Store "f" "b" allOkOutcomes 0)).head?
        = some (c1Store ++ [createJob "b" "f" 0])
    ∧ countNonTerminal (c1Store ++ [createJob "b" "f" 0]) "f" = 2 :=
  ⟨rfl, rfl, rfl⟩

/-- C1 amended: the dedup invariant holds only on the automation-scheduler
path — when a non-terminal Job for the fileId exists the cycle skips the
file entirely, and when none exists the processing run keeps at most one
non-terminal Job for that fileId at every store state and leaves none at the
end. The manual trigger performs no such check, so repeated manual
submissions for the same fileId can create a second concurrently
non-terminal Job. -/
theorem C1_amended_automation_dedup (store : List Job) (f jobId : String)
    (o : ServerOutcomes) (now : Nat) :
    (isProcessing store f = true →
      (automationStep store f jobId o now).finalStore = store
      ∧ (automationStep store f jobId o now).snapshots = [store])
    ∧ (isProcessing store f = false →
      (∀ s ∈ (automationStep store f jobId o now).snapshots, countNonTerminal s f ≤ 1)
      ∧ countNonTerminal (automationStep store f jobId o now).finalStore f = 0) := by
  constructor
  · intro h
    constructor <;> simp [automationStep, h]
  · intro h
    have h0 : countNonTerminal store f = 0 := (isProcessing_eq_false_iff store f).mp h
    have hstep : automationStep store f jobId o now
        = { snapshots := store :: storeSnapshots store (serverProcessFile f jobId o now),
            finalStore := store ++ [(serverProcessFile f jobId o now).job] } := by
      simp [automationStep, h]
    rw [hstep]
    constructor
    · intro s hs
      simp only [List.mem_cons] at hs
      rcases hs with rfl | hs
      · omega
      · simp only [storeSnapshots, List.mem_map] at hs
        obtain ⟨j, _hj, rfl⟩ := hs
        have hc := countNonTerminal_append_singleton store j f
        by_cases hjj : (j.fileId == f && nonTerminal j) = true <;> simp [hjj] at hc <;> omega
    · have hterm := serverProcessFile_terminal f jobId o now
      have hnt := nonTerminal_false_of_terminal _ hterm
      rw [countNonTerminal_append_singleton]
      simp [hnt, h0]

/-- Witness for C1's amended theorem on an empty store. -/
theorem C1_amended_automation_dedup_witness :
    isProcessing [] "f" = false
    ∧ (∀ s ∈ (automationStep [] "f" "b" allOkOutcomes 0).snapshots, countNonTerminal s "f" ≤ 1)
    ∧ countNonTerminal (automationStep [] "f" "b" allOkOutcomes 0).finalStore "f" = 0 :=
  ⟨rfl, ((C1_amended_automation_dedup [] "f" "b" allOkOutcomes 0).2 rfl).1,
    ((C1_amended_automation_dedup [] "f" "b" allOkOutcomes 0).2 rfl).2⟩

/-! ## C6: progress monotonicity -/

/-- C6: on a run where fetch, credential setup, generation (non-empty), and
upload all succeed, the recorded (status, progress) sequence is non-decreasing
in progress and ends at exactly 100 in state `completed`; and on every run,
whatever the outcomes, an adjacent progress decrease happens only on a
transition to `failed`. -/
theorem C6_progress_monotone (fileId jobId : String) (o : ServerOutcomes) (now : Nat) :
    ((∃ p, o.fetch = Except.ok p) → o.geminiInit = Except.ok ()
      → (∃ t, o.genText = Except.ok t ∧ t ≠ "") → (∃ u, o.upload = Except.ok u) →
      List.Chain' (fun a b : JStatus × Nat => a.2 ≤ b.2)
        (progressTrace (serverProcessFile fileId jobId o now))
      ∧ (serverProcessFile fileId jobId o now).job.status = JStatus.jsCompleted
      ∧ (serverProcessFile fileId jobId o now).job.progress = 100)
    ∧ List.Chain' (fun a b : JStatus × Nat => b.2 < a.2 → b.1 = JStatus.jsFailed)
        (progressTrace (serverProcessFile fileId jobId o now)) := by
  rcases o with ⟨fetch, gi, gt, up, rec⟩
  constructor
  · rintro ⟨p, hp⟩ hg ⟨t, ht, htne⟩ ⟨u, hu⟩
    simp only at hp hg ht hu
    subst hp; subst hg; subst ht; subst hu
    have htb : (t == "") = false := by simpa using htne
    refine ⟨?_, ?_, ?_⟩ <;>
      simp [serverProcessFile, serverGenStep, htb, progressTrace, applyUpdate, createJob,
        List.chain'_cons]
  · rcases fetch with m | p
    · simp [serverProcessFile, pfFail, applyUpdate, createJob, progressTrace, List.chain'_cons]
    · rcases gi with m | uu
      · simp [serverProcessFile, pfFail, applyUpdate, createJob, progressTrace, List.chain'_cons]
      · rcases gt with m | t
        · simp [serverProcessFile, serverGenStep, pfFail, applyUpdate, createJob, progressTrace,
            List.chain'_cons]
        · by_cases htb : (t == "") = true
          · simp [serverProcessFile, serverGenStep, htb, pfFail, applyUpdate, createJob,
              progressTrace, List.chain'_cons]
          · rcases up with m | url
            · simp [serverProcessFile, serverGenStep, htb, pfFail, applyUpdate, createJob,
                progressTrace, List.chain'_cons]
            · simp [serverProcessFile, serverGenStep, htb, applyUpdate, createJob,
                progressTrace, List.chain'_cons]

/-- Witness for C6 at the all-success outcomes. -/
theorem C6_progress_monotone_witness :
    List.Chain' (fun a b : JStatus × Nat => a.2 ≤ b.2)
      (progressTrace (serverProcessFile "f" "b" allOkOutcomes 0))
    ∧ (serverProcessFile "f" "b" allOkOutcomes 0).job.status = JStatus.jsCompleted
    ∧ (serverProcessFile "f" "b" allOkOutcomes 0).job.progress = 100 :=
  (C6_progress_monotone "f" "b" allOkOutcomes 0).1
    ⟨"prompt", rfl⟩ rfl ⟨"text", rfl, by decide⟩ ⟨"http://u", rfl⟩

/-! ## C7: reconciliation failure handling -/

/-- C7 counterexample: in the batch tool's pipeline (part_000 lines 117-146)
the reconciliation `axios.put` sits inside the general try/catch, so when
fetch, generation, and persistence succeed but the put throws, the item IS
reported as a failure, contradicting "the pipeline does not report failure". -/
theorem C7_cex_batch_reconciliation_reported_as_failure :
    batchPutAttempted (Except.ok "p") (fun _ => GenOutcome.success "text") = true
    ∧ batchProcessFile "doc.txt" id (Except.ok "p") (fun _ => GenOutcome.success "text")
        (Except.error "put failed")
      = { success := false, name := "doc.txt", error := some "put failed" } :=
  ⟨rfl, rfl⟩

/-- C7 amended: in the server pipeline (server.ts processFile) a
reconciliation failure after a successful upload is swallowed — the Job still
ends `completed` with its result populated and the call returns success; in
the batch tool's pipeline the same failure is caught by the item-level
handler and the item is reported failed. -/
theorem C7_amended_reconciliation_split (fileId jobId : String) (o : ServerOutcomes) (now : Nat)
    (hrec : ∃ er, o.reconcile = Except.error er)
    (hp : ∃ p, o.fetch = Except.ok p) (hg : o.geminiInit = Except.ok ())
    (ht : ∃ t, o.genText = Except.ok t ∧ t ≠ "") (hu : ∃ u, o.upload = Except.ok u) :
    ((serverProcessFile fileId jobId o now).job.status = JStatus.jsCompleted
      ∧ (∃ u, o.upload = Except.ok u
          ∧ (serverProcessFile fileId jobId o now).job.result = some u
          ∧ (serverProcessFile fileId jobId o now).ret = Except.ok u)
      ∧ (serverProcessFile fileId jobId o now).reconcileAttempted = true)
    ∧ (∀ (nm p er : String) (slug : String → String) (gen : Nat → GenOutcome) (t : String),
        (generateWithRetry gen).1 = Except.ok t →
        batchProcessFile nm slug (Except.ok p) gen (Except.error er)
          = { success := false, name := nm, error := some er }) := by
  constructor
  · rcases o with ⟨fetch, gi, gt, up, rec⟩
    obtain ⟨er, hre⟩ := hrec
    obtain ⟨p, hp⟩ := hp
    obtain ⟨t, ht, htne⟩ := ht
    obtain ⟨u, hu⟩ := hu
    simp only at hp hg ht hu hre
    subst hp; subst hg; subst ht; subst hu; subst hre
    have htb : (t == "") = false := by simpa using htne
    refine ⟨?_, ⟨u, rfl, ?_, ?_⟩, ?_⟩ <;>
      simp [serverProcessFile, serverGenStep, htb, applyUpdate, createJob]
  · intro nm p er slug gen t hgen
    simp [batchProcessFile, hgen]

/-- Witness for C7's amended theorem at concrete outcomes with the
reconciliation call failing. -/
theorem C7_amended_reconciliation_split_witness :
    (serverProcessFile "f" "b"
        { fetch := Except.ok "prompt", geminiInit := Except.ok (), genText := Except.ok "text",
          upload := Except.ok "http://u", reconcile := Except.error "api down" } 0).job.status
      = JStatus.jsCompleted
    ∧ (serverProcessFile "f" "b"
        { fetch := Except.ok "prompt", geminiInit := Except.ok (), genText := Except.ok "text",
          upload := Except.ok "http://u", reconcile := Except.error "api down" } 0).job.result
      = some "http://u" :=
  have h := C7_amended_reconciliation_split "f" "b"
    { fetch := Except.ok "prompt", geminiInit := Except.ok (), genText := Except.ok "text",
      upload := Except.ok "http://u", reconcile := Except.error "api down" } 0
    ⟨"api down", rfl⟩ ⟨"prompt", rfl⟩ rfl ⟨"text", rfl, by decide⟩ ⟨"http://u", rfl⟩
  ⟨h.1.1, by
    obtain ⟨u, hu, hres, _⟩ := h.1.2.1
    simp only at hu
    cases hu
    exact hres⟩

/-! ## C8: fetch failure -/

/-- C8: when fetching the source content throws, the Job ends `failed`
carrying the fetch-failure error, the call rethrows it, and the external
store's reconciliation put is never attempted during the run. -/
theorem C8_fetch_failure_fails_without_reconcile (fileId jobId m : String)
    (o : ServerOutcomes) (now : Nat) (h : o.fetch = Except.error m) :
    (serverProcessFile fileId jobId o now).job.status = JStatus.jsFailed
    ∧ (serverProcessFile fileId jobId o now).job.error
        = some ("Failed to fetch prompt file: " ++ m)
    ∧ (serverProcessFile fileId jobId o now).ret
        = Except.error ("Failed to fetch prompt file: " ++ m)
    ∧ (serverProcessFile fileId jobId o now).reconcileAttempted = false := by
  rcases o with ⟨fetch, gi, gt, up, rec⟩
  simp only at h
  subst h
  refine ⟨?_, ?_, ?_, ?_⟩ <;> simp [serverProcessFile, pfFail, applyUpdate, createJob]

/-- Witness for C8 at a concrete failing fetch. -/
theorem C8_fetch_failure_fails_without_reconcile_witness :
    (serverProcessFile "f" "b"
        { fetch := Except.error "net down", geminiInit := Except.ok (),
          genText := Except.ok "text", upload := Except.ok "http://u",
          reconcile := Except.ok () } 0).job.status = JStatus.jsFailed
    ∧ (serverProcessFile "f" "b"
        { fetch := Except.error "net down", geminiInit := Except.ok (),
          genText := Except.ok "text", upload := Except.ok "http://u",
          reconcile := Except.ok () } 0).reconcileAttempted = false :=
  have h := C8_fetch_failure_fails_without_reconcile "f" "b" "net down"
    { fetch := Except.error "net down", geminiInit := Except.ok (),
      genText := Except.ok "text", upload := Except.ok "http://u",
      reconcile := Except.ok () } 0 rfl
  ⟨h.1, h.2.2.2⟩

/-! ## C10: the pipeline always leaves its Job terminal -/

/-- C10: every `processFile` invocation leaves its Job in a terminal state by
the time it finishes — `completed` exactly on the success (normal-return)
path and `failed` on every rethrowing error path; no run leaves the Job
`pending` or `processing`. -/
theorem C10_pipeline_always_terminal (fileId jobId : String) (o : ServerOutcomes) (now : Nat) :
    ((serverProcessFile fileId jobId o now).job.status = JStatus.jsCompleted
      ∨ (serverProcessFile fileId jobId o now).job.status = JStatus.jsFailed)
    ∧ (∀ u, (serverProcessFile fileId jobId o now).ret = Except.ok u →
        (serverProcessFile fileId jobId o now).job.status = JStatus.jsCompleted)
    ∧ (∀ e, (serverProcessFile fileId jobId o now).ret = Except.error e →
        (serverProcessFile fileId jobId o now).job.status = JStatus.jsFailed) := by
  refine ⟨serverProcessFile_terminal fileId jobId o now, ?_⟩
  rcases o with ⟨fetch, gi, gt, up, rec⟩
  rcases fetch with m | p
  · exact ⟨fun u hu => by simp [serverProcessFile] at hu,
      fun e he => by simp [serverProcessFile, pfFail, applyUpdate]⟩
  · rcases gi with m | uu
    · exact ⟨fun u hu => by simp [serverProcessFile] at hu,
        fun e he => by simp [serverProcessFile, pfFail, applyUpdate]⟩
    · rcases gt with m | t
      · exact ⟨fun u hu => by simp [serverProcessFile, serverGenStep] at hu,
          fun e he => by simp [serverProcessFile, serverGenStep, pfFail, applyUpdate]⟩
      · by_cases htb : (t == "") = true
        · exact ⟨fun u hu => by simp [serverProcessFile, serverGenStep, htb] at hu,
            fun e he => by simp [serverProcessFile, serverGenStep, htb, pfFail, applyUpdate]⟩
        · rcases up with m | url
          · exact ⟨fun u hu => by simp [serverProcessFile, serverGenStep, htb] at hu,
              fun e he => by simp [serverProcessFile, serverGenStep, htb, pfFail, applyUpdate]⟩
          · exact ⟨fun u hu => by simp [serverProcessFile, serverGenStep, htb, applyUpdate],
              fun e he => by simp [serverProcessFile, serverGenStep, htb] at he⟩

/-- Witness for C10 at the all-success outcomes. -/
theorem C10_pipeline_always_terminal_witness :
    (serverProcessFile "f" "b" allOkOutcomes 0).ret = Except.ok "http://u"
    ∧ (serverProcessFile "f" "b" allOkOutcomes 0).job.status = JStatus.jsCompleted :=
  ⟨rfl, (C10_pipeline_always_terminal "f" "b" allOkOutcomes 0).2.1 "http://u" rfl⟩

/-! ## Queue runner lemmas (C9) -/

lemma inFlight_cons (x : WorkerPC) (l : List WorkerPC) :
    inFlight (x :: l) = (heldItem x).toList ++ inFlight l := by
  cases hx : heldItem x <;> simp [inFlight, List.filterMap_cons, hx]

lemma perm_swap_blocks {α : Type} (a b r : List α) :
    (a ++ (b ++ r)).Perm (b ++ (a ++ r)) := by
  rw [← List.append_assoc, ← List.append_assoc]
  exact List.perm_append_comm.append_right r

lemma inFlight_set (ws : List WorkerPC) (w : Nat) (pc pc' : WorkerPC)
    (h : ws.get? w = some pc) :
    ((heldItem pc).toList ++ inFlight (ws.set w pc')).Perm
      ((heldItem pc').toList ++ inFlight ws) := by
  induction ws generalizing w with
  | nil => simp at h
  | cons a rest ih =>
    cases w with
    | zero =>
      simp only [List.get?] at h
      cases h
      simp only [List.set, inFlight_cons]
      exact perm_swap_blocks (heldItem pc).toList (heldItem pc').toList (inFlight rest)
    | succ w =>
      simp only [List.get?] at h
      simp only [List.set, inFlight_cons]
      have h1 := perm_swap_blocks (heldItem pc).toList (heldItem a).toList
        (inFlight (rest.set w pc'))
      have h2 := (ih w h).append_left (heldItem a).toList
      have h3 := perm_swap_blocks (heldItem a).toList (heldItem pc').toList (inFlight rest)
      exact (h1.trans h2).trans h3

/-- Inductive invariant of the queue runner: the cursor never passes the batch
end; the worker list keeps its size; the claimed items (pushed results plus
in-flight claims) are exactly the cursor's range, each once; every recorded
result carries its item's outcome; and a worker can only have exited once the
cursor reached the end. -/
structure QInv (c n : Nat) (out : Nat → Bool) (s : QSt) : Prop where
  idx_le : s.idx ≤ n
  wlen : s.workers.length = c
  perm : ((s.results.map Prod.fst) ++ inFlight s.workers).Perm (List.range s.idx)
  outOk : ∀ p ∈ s.results, p.2 = out p.1
  doneIdx : WorkerPC.wDone ∈ s.workers → s.idx = n

lemma inFlight_replicate_atClaim (c : Nat) :
    inFlight (List.replicate c WorkerPC.atClaim) = [] := by
  induction c with
  | zero => rfl
  | succ c ih => simp [List.replicate, inFlight_cons, heldItem, ih]

lemma qInv_init (c n : Nat) (out : Nat → Bool) : QInv c n out (initQ c) := by
  refine ⟨Nat.zero_le n, ?_, ?_, ?_, ?_⟩
  · simp [initQ]
  · simp [initQ, inFlight_replicate_atClaim]
  · intro p hp; simp [initQ] at hp
  · intro hd
    simp only [initQ] at hd
    have := List.eq_of_mem_replicate hd
    simp at this

lemma qInv_step {c n : Nat} {out : Nat → Bool} {s s' : QSt}
    (hinv : QInv c n out s) (hstep : QStep n out s s') : QInv c n out s' := by
  cases hstep with
  | claimExit w hw h =>
    refine ⟨hinv.idx_le, ?_, ?_, hinv.outOk, fun _ => ?_⟩
    · show (s.workers.set w WorkerPC.wDone).length = c
      simpa [List.length_set] using hinv.wlen
    · show ((s.results.map Prod.fst) ++ inFlight (s.workers.set w WorkerPC.wDone)).Perm
        (List.range s.idx)
      have hp := inFlight_set s.workers w WorkerPC.atClaim WorkerPC.wDone hw
      simp only [heldItem, Option.toList, List.nil_append] at hp
      exact (hp.append_left (s.results.map Prod.fst)).trans hinv.perm
    · show s.idx = n
      have h2 := hinv.idx_le
      omega
  | claimItem w hw h =>
    refine ⟨h, ?_, ?_, hinv.outOk, fun hd => ?_⟩
    · show (s.workers.set w (WorkerPC.atItem s.idx)).length = c
      simpa [List.length_set] using hinv.wlen
    · show ((s.results.map Prod.fst) ++ inFlight (s.workers.set w (WorkerPC.atItem s.idx))).Perm
        (List.range (s.idx + 1))
      have hp := inFlight_set s.workers w WorkerPC.atClaim (WorkerPC.atItem s.idx) hw
      simp only [heldItem, Option.toList, List.nil_append] at hp
      have h1 := hp.append_left (s.results.map Prod.fst)
      have h2 := perm_swap_blocks (s.results.map Prod.fst) [s.idx] (inFlight s.workers)
      have h3 := hinv.perm.append_left [s.idx]
      have h4 : (([s.idx] : List Nat) ++ List.range s.idx).Perm (List.range (s.idx + 1)) := by
        rw [List.range_succ]
        exact (List.perm_append_singleton s.idx (List.range s.idx)).symm
      exact ((h1.trans h2).trans h3).trans h4
    · show s.idx + 1 = n
      rcases List.mem_or_eq_of_mem_set hd with hd' | hd'
      · have := hinv.doneIdx hd'
        omega
      · simp at hd'
  | finishItem w i hw =>
    refine ⟨hinv.idx_le, ?_, ?_, ?_, fun hd => ?_⟩
    · show (s.workers.set w WorkerPC.atClaim).length = c
      simpa [List.length_set] using hinv.wlen
    · show (((s.results ++ [(i, out i)]).map Prod.fst)
          ++ inFlight (s.workers.set w WorkerPC.atClaim)).Perm (List.range s.idx)
      have hp := inFlight_set s.workers w (WorkerPC.atItem i) WorkerPC.atClaim hw
      simp only [heldItem, Option.toList, List.nil_append] at hp
      have heq : ((s.results ++ [(i, out i)]).map Prod.fst)
            ++ inFlight (s.workers.set w WorkerPC.atClaim)
          = (s.results.map Prod.fst)
            ++ ([i] ++ inFlight (s.workers.set w WorkerPC.atClaim)) := by
        simp
      rw [heq]
      exact (hp.append_left _).trans hinv.perm
    · intro p hp
      rcases List.mem_append.mp hp with hp' | hp'
      · exact hinv.outOk p hp'
      · simp at hp'
        subst hp'
        rfl
    · show s.idx = n
      rcases List.mem_or_eq_of_mem_set hd with hd' | hd'
      · exact hinv.doneIdx hd'
      · simp at hd'

lemma qInv_reach {c n : Nat} {out : Nat → Bool} {s : QSt}
    (hr : QReach c n out s) : QInv c n out s := by
  induction hr with
  | refl => exact qInv_init c n out
  | tail _ hstep ih => exact qInv_step ih hstep

lemma qstep_exists_of_not_done {n : Nat} {out : Nat → Bool} (s : QSt) (w : Nat) (pc : WorkerPC)
    (hw : s.workers.get? w = some pc) (hpc : pc ≠ WorkerPC.wDone) :
    ∃ s', QStep n out s s' := by
  cases pc with
  | atClaim =>
    rcases Nat.lt_or_ge s.idx n with h | h
    · exact ⟨_, QStep.claimItem s w hw h⟩
    · exact ⟨_, QStep.claimExit s w hw h⟩
  | atItem i => exact ⟨_, QStep.finishItem s w i hw⟩
  | wDone => exact absurd rfl hpc

lemma stuck_all_done {n : Nat} {out : Nat → Bool} {s : QSt} (hs : QStuck n out s) :
    ∀ pc ∈ s.workers, pc = WorkerPC.wDone := by
  intro pc hpc
  by_contra hne
  obtain ⟨w, hw⟩ := List.get?_of_mem hpc
  obtain ⟨s', hstep⟩ := @qstep_exists_of_not_done n out s w pc hw hne
  exact hs s' hstep

lemma inFlight_eq_nil_of_all_done (ws : List WorkerPC)
    (h : ∀ pc ∈ ws, pc = WorkerPC.wDone) : inFlight ws = [] := by
  induction ws with
  | nil => rfl
  | cons a l ih =>
    have ha := h a (by simp)
    subst ha
    rw [inFlight_cons]
    simp only [heldItem, Option.toList, List.nil_append]
    exact ih (fun pc hpc => h pc (by simp [hpc]))

lemma mapSum_set (ws : List WorkerPC) (w : Nat) (pc pc' : WorkerPC)
    (h : ws.get? w = some pc) :
    ((ws.set w pc').map wWeight).sum + wWeight pc = (ws.map wWeight).sum + wWeight pc' := by
  induction ws generalizing w with
  | nil => simp at h
  | cons a l ih =>
    cases w with
    | zero =>
      simp only [List.get?] at h
      cases h
      simp only [List.set, List.map_cons, List.sum_cons]
      omega
    | succ w =>
      simp only [List.get?] at h
      have hh := ih w h
      simp only [List.set, List.map_cons, List.sum_cons]
      omega

lemma qMeasure_decreases {n : Nat} {out : Nat → Bool} {s s' : QSt}
    (hstep : QStep n out s s') : qMeasure n s' < qMeasure n s := by
  cases hstep with
  | claimExit w hw h =>
    have hm := mapSum_set s.workers w WorkerPC.atClaim WorkerPC.wDone hw
    simp only [wWeight] at hm
    show 2 * (n - s.idx) + ((s.workers.set w WorkerPC.wDone).map wWeight).sum
      < 2 * (n - s.idx) + (s.workers.map wWeight).sum
    omega
  | claimItem w hw h =>
    have hm := mapSum_set s.workers w WorkerPC.atClaim (WorkerPC.atItem s.idx) hw
    simp only [wWeight] at hm
    show 2 * (n - (s.idx + 1)) + ((s.workers.set w (WorkerPC.atItem s.idx)).map wWeight).sum
      < 2 * (n - s.idx) + (s.workers.map wWeight).sum
    omega
  | finishItem w i hw =>
    have hm := mapSum_set s.workers w (WorkerPC.atItem i) WorkerPC.atClaim hw
    simp only [wWeight] at hm
    show 2 * (n - s.idx) + ((s.workers.set w WorkerPC.atClaim).map wWeight).sum
      < 2 * (n - s.idx) + (s.workers.map wWeight).sum
    omega

lemma qstuck_of_all_done (n : Nat) (out : Nat → Bool) (s : QSt)
    (h : ∀ pc ∈ s.workers, pc = WorkerPC.wDone) : QStuck n out s := by
  intro s' hstep
  cases hstep with
  | claimExit w hw _ => have := h _ (List.get?_mem hw); simp at this
  | claimItem w hw _ => have := h _ (List.get?_mem hw); simp at this
  | finishItem w i hw => have := h _ (List.get?_mem hw); simp at this

/-! ## C9: the queue runner processes each item exactly once -/

/-- C9: for any batch size `n`, concurrency bound `c ≥ 1`, and per-item
outcomes `out`, every completed execution of the `runQueue` interleaving
semantics (a reachable state where no worker can step — `Promise.all`
resolved) has processed each item index exactly once (its results' item
indices are a permutation of `range n`), produced exactly one result entry
per item, recorded each item's own outcome (so one item's failure never
prevents the others from being processed); moreover every step strictly
decreases a Nat measure, so every execution completes. -/
theorem C9_queue_processes_each_item_exactly_once (c n : Nat) (out : Nat → Bool) (s : QSt)
    (hc : 1 ≤ c) (hr : QReach c n out s) (hs : QStuck n out s) :
    (s.results.map Prod.fst).Perm (List.range n)
    ∧ s.results.length = n
    ∧ (∀ p ∈ s.results, p.2 = out p.1)
    ∧ (∀ t t', QStep n out t t' → qMeasure n t' < qMeasure n t) := by
  have hinv := qInv_reach hr
  have hdone := stuck_all_done hs
  have hflight := inFlight_eq_nil_of_all_done s.workers hdone
  have hne : s.workers ≠ [] := by
    intro h0
    have hl := hinv.wlen
    rw [h0] at hl
    simp at hl
    omega
  obtain ⟨pc, hpc⟩ := List.exists_mem_of_ne_nil s.workers hne
  have hidx : s.idx = n := hinv.doneIdx ((hdone pc hpc) ▸ hpc)
  have hperm : (s.results.map Prod.fst).Perm (List.range n) := by
    have hp := hinv.perm
    rw [hflight, List.append_nil, hidx] at hp
    exact hp
  refine ⟨hperm, ?_, hinv.outOk, fun t t' => qMeasure_decreases⟩
  have hl := hperm.length_eq
  simpa using hl

/-- Witness for C9: one worker, a one-item batch whose item fails; the serial
execution claim → process → exit reaches the stuck state with exactly that
item's result recorded. -/
theorem C9_queue_processes_each_item_exactly_once_witness :
    (1 ≤ 1
    ∧ QReach 1 1 (fun _ => false) { idx := 1, results := [(0, false)], workers := [WorkerPC.wDone] }
    ∧ QStuck 1 (fun _ => false) { idx := 1, results := [(0, false)], workers := [WorkerPC.wDone] })
    ∧ ((([(0, false)] : List (Nat × Bool)).map Prod.fst).Perm (List.range 1)
    ∧ ([(0, false)] : List (Nat × Bool)).length = 1) := by
  have st1 : QStep 1 (fun _ => false) (initQ 1)
      { idx := 1, results := [], workers := [WorkerPC.atItem 0] } :=
    QStep.claimItem (initQ 1) 0 rfl (by decide)
  have st2 : QStep 1 (fun _ => false)
      { idx := 1, results := [], workers := [WorkerPC.atItem 0] }
      { idx := 1, results := [(0, false)], workers := [WorkerPC.atClaim] } :=
    QStep.finishItem { idx := 1, results := [], workers := [WorkerPC.atItem 0] } 0 0 rfl
  have st3 : QStep 1 (fun _ => false)
      { idx := 1, results := [(0, false)], workers := [WorkerPC.atClaim] }
      { idx := 1, results := [(0, false)], workers := [WorkerPC.wDone] } :=
    QStep.claimExit { idx := 1, results := [(0, false)], workers := [WorkerPC.atClaim] } 0 rfl
      (by decide)
  have hreach : QReach 1 1 (fun _ => false)
      { idx := 1, results := [(0, false)], workers := [WorkerPC.wDone] } :=
    Relation.ReflTransGen.tail
      (Relation.ReflTransGen.tail (Relation.ReflTransGen.tail Relation.ReflTransGen.refl st1) st2)
      st3
  have hstuck : QStuck 1 (fun _ => false)
      { idx := 1, results := [(0, false)], workers := [WorkerPC.wDone] } :=
    qstuck_of_all_done 1 (fun _ => false) _ (by intro pc hpc; simpa using hpc)
  have main := C9_queue_processes_each_item_exactly_once 1 1 (fun _ => false)
    { idx := 1, results := [(0, false)], workers := [WorkerPC.wDone] }
    (by decide) hreach hstuck
  exact ⟨⟨by decide, hreach, hstuck⟩, main.1, main.2.1⟩
